import Mathlib

/-!
# Ghost: a GhostText bridge between a websocket connection and an acme window

A shallow embedding of `main.go`.  The two functions of the program, `handler`
and `handleWinEvents`, are written as state-passing functions over a `World`
that holds the acme window (the editable surface), the write side of the
connection and the ordered trace of every call the program makes on its
collaborators (the window, the connection, the HTTP response, the logger).

The collaborators themselves (`9fans.net/go/acme`, `github.com/gorilla/websocket`,
`net/http`) are not part of the repository; the small model of each that the
program needs is given first and documented where it is defined.
-/

namespace Ghost

/-! ## Data types of `main.go` -/

/-- Go `type Selection struct { Start int; End int }`. -/
structure Selection where
  Start : Int
  End : Int
deriving DecidableEq, Repr

/-- Go `type WebText struct`, the message exchanged in both directions. -/
structure WebText where
  Selections : List Selection
  Syntax : String
  Title : String
  Text : String
  URL : String
deriving DecidableEq, Repr

/-! ## Collaborators -/

/-- The fields of `acme.Event` (package `9fans.net/go/acme`). -/
structure Event where
  C1 : Char
  C2 : Char
  Q0 : Int
  Q1 : Int
  OrigQ0 : Int
  OrigQ1 : Int
  Flag : Int
  Nb : Int
  Nr : Int
  Text : String
  Arg : String
  Loc : String
deriving DecidableEq, Repr

/-- The two addresses the program writes with `w.Addr`:
`w.Addr(",")` and `w.Addr("#%v,#%v", q0, q1)`. -/
inductive Address where
  | all
  | range (q0 q1 : Int)
deriving DecidableEq, Repr

/-- An error returned by `conn.ReadJSON`: either a `*websocket.CloseError`
carrying the close code of the peer (1006 for a connection that dropped
without a close frame), or any other error value (a JSON syntax error for a
malformed payload, a network error). -/
inductive ConnErr where
  | closeError (code : Int) (text : String)
  | other (msg : String)
deriving DecidableEq, Repr

/-- The text of an error, as `%v` prints it. -/
def ConnErr.msg : ConnErr → String
  | .closeError _ text => text
  | .other msg => msg

/-- The constant `websocket.CloseNoStatusReceived`. -/
def CloseNoStatusReceived : Int := 1005

/-- The function `websocket.IsUnexpectedCloseError(err, expectedCodes...)`: true
exactly for a `*CloseError` whose code is not one of the expected codes. -/
def IsUnexpectedCloseError (err : ConnErr) (expectedCodes : List Int) : Bool :=
  match err with
  | .closeError code _ => !(expectedCodes.contains code)
  | .other _ => false

/-- Every call the program makes on a collaborator, in the order of the source. -/
inductive Call where
  | hdrSet (key value : String)
  | respWrite (body : String)
  | upgrade
  | acmeNew
  | goHandleWinEvents
  | readJSON
  | writeJSON (web : WebText)
  | logPrintf (format : String) (args : List String)
  | winWrite (file data : String)
  | winName (name : String)
  | winAddr (a : Address)
  | winCtl (cmd : String)
  | winReadAll (file : String)
  | winReadAddr
  | winWriteEvent (e : Event)
  | winDel (sure : Bool)
  | winCloseFiles
deriving DecidableEq, Repr

/-- Modelled from the spec: the editable surface (an acme window, package
`9fans.net/go/acme`, not part of the repository).  It has a display name, a
tag, a body text, a current address for the data file, an active selection
(dot) and a dirty indicator.  Offsets count characters of the body. -/
structure Win where
  name : String
  tag : String
  body : String
  addr : Nat × Nat
  dot : Nat × Nat
  dirty : Bool
deriving DecidableEq, Repr

/-- Modelled from the spec: the surface that `acme.New` creates. -/
def Win.fresh : Win :=
  { name := "", tag := "", body := "", addr := (0, 0), dot := (0, 0), dirty := false }

/-- Modelled from the spec: "set/get a current address by offset or by symbolic
position".  The address `,` is the whole body; `#q0,#q1` is accepted when
`0 ≤ q0 ≤ q1 ≤` the length of the body and refused otherwise. -/
def Win.setAddr (w : Win) : Address → Option Win
  | .all => some { w with addr := (0, w.body.length) }
  | .range q0 q1 =>
    if 0 ≤ q0 ∧ q0 ≤ q1 ∧ q1 ≤ (w.body.length : Int) then
      some { w with addr := (q0.toNat, q1.toNat) }
    else none

/-- Where an offset `q` of the body lands when the range from `q0` to `q1` is
replaced by `nr` characters. -/
def shiftOffset (q0 q1 nr q : Nat) : Nat :=
  let q := if q0 < q then q - min (q1 - q0) (q - q0) else q
  if q0 ≤ q then q + nr else q

/-- Modelled from the spec: "replace addressed byte range".  A write to the
data file replaces the addressed text by `data`, leaves the address at the end
of the new text, carries the selection along and marks the surface dirty; it
is refused when the address lies outside the body. -/
def Win.writeData (w : Win) (data : String) : Option Win :=
  if w.addr.1 ≤ w.body.length ∧ w.addr.2 ≤ w.body.length then
    let q0 := w.addr.1
    let q1 := max w.addr.1 w.addr.2
    some { w with
      body := ⟨w.body.data.take q0 ++ data.data ++ w.body.data.drop q1⟩
      addr := (q0 + data.length, q0 + data.length)
      dot := (shiftOffset q0 q1 data.length w.dot.1, shiftOffset q0 q1 data.length w.dot.2)
      dirty := true }
  else none

/-- Modelled from the spec: "write named auxiliary regions (e.g., a control/tag
region)" and the data file. -/
def Win.write (w : Win) (file data : String) : Option Win :=
  if file = "tag" then some { w with tag := w.tag ++ data }
  else if file = "data" then w.writeData data
  else none

/-- Modelled from the spec: the control messages the program sends:
`clean` clears the dirty indicator, `addr=dot` copies the selection to the
address, `dot=addr` copies the address to the selection. -/
def Win.ctl (w : Win) (cmd : String) : Option Win :=
  if cmd = "clean" then some { w with dirty := false }
  else if cmd = "addr=dot" then some { w with addr := w.dot }
  else if cmd = "dot=addr" then some { w with dot := w.addr }
  else none

/-- Modelled from the spec: "read addressed byte range or whole content". -/
def Win.readAll (w : Win) (file : String) : Option String :=
  if file = "body" then some w.body
  else if file = "tag" then some w.tag
  else none

/-- Modelled from the spec: "delete the surface (optionally discarding unsaved
state)".  `Del(sure)` with `sure = true` always deletes; with `sure = false`
it deletes a clean surface and leaves a dirty one in place.  The result is the
surface that remains, if any. -/
def Win.del (w : Win) (sure : Bool) : Option Win :=
  if sure || !w.dirty then none else some w

/-- The state a session runs in: the surface (`none` before it is created and
after it is deleted), the error `conn.WriteJSON` returns (`none` while the
connection accepts writes) and the trace of calls made so far. -/
structure World where
  win : Option Win
  writeErr : Option String
  calls : List Call
deriving DecidableEq, Repr

/-- The text of the error a call on a deleted surface returns. -/
def errNoWindow : String := "window deleted"

/-- Record a call in the trace. -/
def World.call (s : World) (c : Call) : World :=
  { s with calls := s.calls ++ [c] }

/-- Apply an operation of the surface whose result the program ignores: the
surface changes when the operation succeeds and stays as it is otherwise. -/
def World.onWin (s : World) (f : Win → Option Win) : World :=
  match s.win with
  | none => s
  | some w =>
    match f w with
    | some w1 => { s with win := some w1 }
    | none => s

/-- Go `log.Printf(format, args...)`. -/
def World.logPrintf (s : World) (format : String) (args : List String) : World :=
  s.call (.logPrintf format args)

/-- Go `w.Write(file, data)`. -/
def World.Write (s : World) (file data : String) : World :=
  (s.call (.winWrite file data)).onWin (fun w => w.write file data)

/-- Go `w.Name(name)`. -/
def World.Name (s : World) (name : String) : World :=
  (s.call (.winName name)).onWin (fun w => some { w with name := name })

/-- Go `w.Addr(...)`. -/
def World.Addr (s : World) (a : Address) : World :=
  (s.call (.winAddr a)).onWin (fun w => w.setAddr a)

/-- Go `w.Ctl(cmd)`. -/
def World.Ctl (s : World) (cmd : String) : World :=
  (s.call (.winCtl cmd)).onWin (fun w => w.ctl cmd)

/-- Go `w.ReadAll(file)`: the bytes read and the error. -/
def World.ReadAll (s : World) (file : String) : String × Option String × World :=
  let s1 := s.call (.winReadAll file)
  match s.win with
  | none => ("", some errNoWindow, s1)
  | some w =>
    match w.readAll file with
    | some b => (b, none, s1)
    | none => ("", some "no such file", s1)

/-- Go `w.ReadAddr()`: the two offsets of the address and the error. -/
def World.ReadAddr (s : World) : Int × Int × Option String × World :=
  let s1 := s.call .winReadAddr
  match s.win with
  | none => (0, 0, some errNoWindow, s1)
  | some w => ((w.addr.1 : Int), (w.addr.2 : Int), none, s1)

/-- Go `w.WriteEvent(e)`: the event goes back to the surface for its default
processing, which is left to the surface. -/
def World.WriteEvent (s : World) (e : Event) : World :=
  s.call (.winWriteEvent e)

/-- Go `w.Del(sure)`. -/
def World.Del (s : World) (sure : Bool) : World :=
  let s1 := s.call (.winDel sure)
  match s.win with
  | none => s1
  | some w => { s1 with win := w.del sure }

/-- Go `w.CloseFiles()`. -/
def World.CloseFiles (s : World) : World :=
  s.call .winCloseFiles

/-- Go `conn.WriteJSON(web)`: the error returned. -/
def World.WriteJSON (s : World) (web : WebText) : Option String × World :=
  (s.writeErr, s.call (.writeJSON web))

/-! ## `handleWinEvents` -/

/-- The body of the `for e := range w.EventChan()` loop of `handleWinEvents`. -/
def handleEvent (e : Event) (s : World) : World :=
  if e.C2 = 'x' ∨ e.C2 = 'X' then
    if e.Text = "Put" then
      let (body, err, s) := s.ReadAll "body"
      let s := match err with
        | some err => s.logPrintf "failed to read body: %v\n" [err]
        | none => s
      let s := s.Ctl "addr=dot"
      let (q0, q1, _, s) := s.ReadAddr
      let web : WebText :=
        { Selections := [{ Start := q0, End := q1 }], Syntax := "text.plain",
          Title := "", Text := body, URL := "" }
      let (err, s) := s.WriteJSON web
      let s := match err with
        | some err => s.logPrintf "WriteJSON failed: %v\n" [err]
        | none => s
      s.Ctl "clean"
    else s.WriteEvent e
  else s.WriteEvent e

/-- Go `handleWinEvents(w, conn)` on an event stream that delivers `es` and
then ends. -/
def handleWinEvents (es : List Event) (s : World) : World :=
  (es.foldl (fun s e => handleEvent e s) s).CloseFiles

/-! ## `handler` -/

/-- The statements of the read loop of `handler` that follow a successful
`conn.ReadJSON(&web)`. -/
def applyInbound (web : WebText) (s : World) : World :=
  let s := s.Name ("/Ghost/" ++ web.URL)
  let s := s.Addr .all
  let s := s.Write "data" web.Text
  let s := s.Ctl "clean"
  match web.Selections with
  | sel :: _ =>
    let s := s.Addr (.range sel.Start sel.End)
    s.Ctl "dot=addr"
  | [] => s

/-- An HTTP request: its header, a list of keys with their values. -/
structure Request where
  Header : List (String × List String)
deriving DecidableEq, Repr

/-- Go `r.Header.Get(key)`: the first value of the key, or the empty string. -/
def Request.Get (r : Request) (key : String) : String :=
  match r.Header.lookup key with
  | some (v :: _) => v
  | _ => ""

/-- The `for` loop of `handler`, run on the successive results of
`conn.ReadJSON`.  The second component tells whether `handler` returned; it is
`false` when the results run out, the program then staying blocked in
`conn.ReadJSON`. -/
def readLoop (r : Request) : List (Except ConnErr WebText) → World → World × Bool
  | [], s => (s.call .readJSON, false)
  | .error err :: _, s =>
    let s := s.call .readJSON
    let s :=
      if IsUnexpectedCloseError err [CloseNoStatusReceived] then
        s.logPrintf "error: %v, user-agent: %v" [err.msg, r.Get "User-Agent"]
      else s
    (s.Del false, true)
  | .ok web :: rest, s => readLoop r rest (applyInbound web (s.call .readJSON))

/-- What the collaborators answer during one call of `handler`: the error of
`upgrader.Upgrade`, the error of `acme.New`, and the successive results of
`conn.ReadJSON`. -/
structure Env where
  upgradeErr : Option String
  newErr : Option String
  reads : List (Except ConnErr WebText)

/-- Go `handler(wr, r)` with the flag `*port` as a parameter. -/
def handler (port : Int) (r : Request) (env : Env) (s : World) : World × Bool :=
  if r.Get "Upgrade" ≠ "websocket" then
    let s := s.call (.hdrSet "Content-Type" "application/json")
    let greeting := "\x7b\"WebSocketPort\":" ++ toString port ++ ",\"ProtocolVersion\":1\x7d"
    (s.call (.respWrite (greeting ++ "\n")), true)
  else
    let s := s.call .upgrade
    match env.upgradeErr with
    | some err => (s.logPrintf "websocket upgrade failed: %v\n" [err], true)
    | none =>
      let s := s.call .acmeNew
      match env.newErr with
      | some err => (s.logPrintf "acme.New failed: %v\n" [err], true)
      | none =>
        let s := { s with win := some Win.fresh }
        let s := s.Write "tag" "Undo Redo Put"
        let s := s.call .goHandleWinEvents
        readLoop r env.reads s

/-! ## Observations on the trace -/

/-- The messages passed to `conn.WriteJSON`, in order. -/
def written (cs : List Call) : List WebText :=
  cs.filterMap (fun c => match c with | .writeJSON web => some web | _ => none)

/-- The events passed to `w.WriteEvent`, in order. -/
def forwarded (cs : List Call) : List Event :=
  cs.filterMap (fun c => match c with | .winWriteEvent e => some e | _ => none)

/-- The number of `w.Del` calls. -/
def delCount (cs : List Call) : Nat :=
  (cs.filter (fun c => match c with | .winDel _ => true | _ => false)).length

/-- The log entries, in order. -/
def logged (cs : List Call) : List (String × List String) :=
  cs.filterMap (fun c => match c with | .logPrintf f a => some (f, a) | _ => none)

/-- The number of `conn.ReadJSON` calls. -/
def readCount (cs : List Call) : Nat :=
  (cs.filter (fun c => match c with | .readJSON => true | _ => false)).length

/-! ## Closed forms used in the proofs -/

/-- The log entry that follows a failed `conn.WriteJSON`. -/
def writeLog : Option String → List Call
  | some err => [Call.logPrintf "WriteJSON failed: %v\n" [err]]
  | none => []

/-- The calls one inbound message adds to the trace (`applyInbound_calls`). -/
def inboundCalls (web : WebText) : List Call :=
  [Call.winName ("/Ghost/" ++ web.URL), Call.winAddr Address.all,
    Call.winWrite "data" web.Text, Call.winCtl "clean"] ++
  match web.Selections with
  | sel :: _ => [Call.winAddr (Address.range sel.Start sel.End), Call.winCtl "dot=addr"]
  | [] => []

/-- The surface `applyInbound` leaves behind when run on the live surface `w`
(`applyInbound_some`). -/
def inboundWin (web : WebText) (w : Win) : Win :=
  let n := web.Text.length
  match web.Selections with
  | sel :: _ =>
    if 0 ≤ sel.Start ∧ sel.Start ≤ sel.End ∧ sel.End ≤ (n : Int) then
      { name := "/Ghost/" ++ web.URL, tag := w.tag, body := web.Text,
        addr := (sel.Start.toNat, sel.End.toNat), dot := (sel.Start.toNat, sel.End.toNat),
        dirty := false }
    else
      { name := "/Ghost/" ++ web.URL, tag := w.tag, body := web.Text,
        addr := (n, n), dot := (n, n), dirty := false }
  | [] =>
    { name := "/Ghost/" ++ web.URL, tag := w.tag, body := web.Text,
      addr := (n, n),
      dot := (shiftOffset 0 w.body.length n w.dot.1, shiftOffset 0 w.body.length n w.dot.2),
      dirty := false }

/-! ## Sample inputs -/

/-- The execute event of a middle click on `Put`. -/
def putEvent : Event :=
  { C1 := 'M', C2 := 'x', Q0 := 10, Q1 := 13, OrigQ0 := 10, OrigQ1 := 13, Flag := 0,
    Nb := 3, Nr := 3, Text := "Put", Arg := "", Loc := "" }

/-- The execute event of a middle click on `Undo`. -/
def undoEvent : Event :=
  { C1 := 'M', C2 := 'x', Q0 := 0, Q1 := 4, OrigQ0 := 0, OrigQ1 := 4, Flag := 1,
    Nb := 4, Nr := 4, Text := "Undo", Arg := "", Loc := "" }

/-- The inbound message of the scenario of the specification. -/
def helloText : WebText :=
  { Selections := [{ Start := 0, End := 5 }], Syntax := "", Title := "", Text := "hello",
    URL := "http://x" }

/-- Go `len(s)` on a string: the number of bytes of its UTF-8 encoding. -/
def goLen (s : String) : Nat := s.utf8ByteSize

/-- An inbound message whose text is one character of two bytes, with a
selection that ends at the byte length of the text. -/
def accentText : WebText :=
  { Selections := [{ Start := 0, End := 2 }], Syntax := "", Title := "", Text := "é",
    URL := "http://x" }

/-- A session whose surface has just been created. -/
def freshWorld : World :=
  { win := some Win.fresh, writeErr := none, calls := [] }

/-- A session whose surface holds unsaved edits of the user. -/
def dirtyWorld : World :=
  { win := some { name := "/Ghost/http://x", tag := "Undo Redo Put", body := "hello, world",
                  addr := (0, 5), dot := (12, 12), dirty := true },
    writeErr := none, calls := [] }

/-- A session whose surface has been deleted. -/
def closedWorld : World :=
  { win := none, writeErr := none, calls := [] }

/-- A request that asks for the websocket upgrade. -/
def upgradeRequest : Request :=
  { Header := [("Upgrade", ["websocket"]), ("User-Agent", ["Firefox"])] }

/-- A plain request. -/
def plainRequest : Request :=
  { Header := [("Accept", ["*/*"])] }

/-! ## Basic facts -/

@[simp]
theorem call_calls (s : World) (c : Call) : (s.call c).calls = s.calls ++ [c] := rfl

@[simp]
theorem call_win (s : World) (c : Call) : (s.call c).win = s.win := rfl

@[simp]
theorem call_writeErr (s : World) (c : Call) : (s.call c).writeErr = s.writeErr := rfl

theorem handleEvent_pass (e : Event) (s : World)
    (h : ¬ ((e.C2 = 'x' ∨ e.C2 = 'X') ∧ e.Text = "Put")) :
    handleEvent e s = s.WriteEvent e := by
  unfold handleEvent
  by_cases h1 : e.C2 = 'x' ∨ e.C2 = 'X'
  · have h2 : e.Text ≠ "Put" := fun h2 => h ⟨h1, h2⟩
    simp [h1, h2]
  · simp [h1]

/-- A publish command on a live surface. -/
theorem handleEvent_publish_some (e : Event) (w : Win) (we : Option String) (cs : List Call)
    (h1 : e.C2 = 'x' ∨ e.C2 = 'X') (h2 : e.Text = "Put") :
    handleEvent e { win := some w, writeErr := we, calls := cs } =
      { win := some { w with addr := w.dot, dirty := false }, writeErr := we,
        calls := cs ++ [Call.winReadAll "body", Call.winCtl "addr=dot", Call.winReadAddr,
          Call.writeJSON ⟨[⟨(w.dot.1 : Int), (w.dot.2 : Int)⟩], "text.plain", "", w.body, ""⟩] ++
          writeLog we ++ [Call.winCtl "clean"] } := by
  unfold handleEvent
  simp only [h1, h2, if_true]
  cases we <;> simp [World.ReadAll, World.ReadAddr, World.WriteJSON, World.Ctl, World.logPrintf, Win.readAll, World.onWin, Win.ctl, World.call, writeLog]

/-- A publish command on a deleted surface. -/
theorem handleEvent_publish_none (e : Event) (we : Option String) (cs : List Call)
    (h1 : e.C2 = 'x' ∨ e.C2 = 'X') (h2 : e.Text = "Put") :
    handleEvent e { win := none, writeErr := we, calls := cs } =
      { win := none, writeErr := we,
        calls := cs ++ [Call.winReadAll "body",
          Call.logPrintf "failed to read body: %v\n" [errNoWindow],
          Call.winCtl "addr=dot", Call.winReadAddr,
          Call.writeJSON ⟨[⟨0, 0⟩], "text.plain", "", "", ""⟩] ++
          writeLog we ++ [Call.winCtl "clean"] } := by
  unfold handleEvent
  simp only [h1, h2, if_true]
  cases we <;> simp [World.ReadAll, World.ReadAddr, World.WriteJSON, World.Ctl, World.logPrintf, World.onWin, World.call, writeLog]

theorem Name_some (w : Win) (we : Option String) (cs : List Call) (n : String) :
    World.Name { win := some w, writeErr := we, calls := cs } n =
      { win := some { w with name := n }, writeErr := we, calls := cs ++ [Call.winName n] } := rfl

theorem Addr_all_some (w : Win) (we : Option String) (cs : List Call) :
    World.Addr { win := some w, writeErr := we, calls := cs } Address.all =
      { win := some { w with addr := (0, w.body.length) }, writeErr := we,
        calls := cs ++ [Call.winAddr Address.all] } := rfl

theorem Ctl_clean_some (w : Win) (we : Option String) (cs : List Call) :
    World.Ctl { win := some w, writeErr := we, calls := cs } "clean" =
      { win := some { w with dirty := false }, writeErr := we,
        calls := cs ++ [Call.winCtl "clean"] } := rfl

theorem Ctl_dot_some (w : Win) (we : Option String) (cs : List Call) :
    World.Ctl { win := some w, writeErr := we, calls := cs } "dot=addr" =
      { win := some { w with dot := w.addr }, writeErr := we,
        calls := cs ++ [Call.winCtl "dot=addr"] } := rfl

/-- Replacing the whole body. -/
theorem Write_data_all (w : Win) (we : Option String) (cs : List Call) (d : String)
    (h : w.addr = (0, w.body.length)) :
    World.Write { win := some w, writeErr := we, calls := cs } "data" d =
      { win := some { w with
          body := d
          addr := (d.length, d.length)
          dot := (shiftOffset 0 w.body.length d.length w.dot.1,
                  shiftOffset 0 w.body.length d.length w.dot.2)
          dirty := true },
        writeErr := we, calls := cs ++ [Call.winWrite "data" d] } := by
  have h1 : w.addr.1 = 0 := by rw [h]
  have h2 : w.addr.2 = w.body.length := by rw [h]
  have hl : w.body.data.length = w.body.length := rfl
  have hw : w.write "data" d = w.writeData d := rfl
  simp only [World.Write, World.onWin, call_win, hw]
  simp only [Win.writeData, h1, h2, Nat.zero_le, le_refl, and_self, if_true, Nat.zero_max,
    List.take_zero, List.nil_append, ← hl, List.drop_length, List.append_nil, Nat.zero_add]
  rfl

theorem Addr_range_some (w : Win) (we : Option String) (cs : List Call) (a b : Int) :
    World.Addr { win := some w, writeErr := we, calls := cs } (Address.range a b) =
      { win := some (if 0 ≤ a ∧ a ≤ b ∧ b ≤ (w.body.length : Int) then
                       { w with addr := (a.toNat, b.toNat) } else w),
        writeErr := we, calls := cs ++ [Call.winAddr (Address.range a b)] } := by
  by_cases hv : 0 ≤ a ∧ a ≤ b ∧ b ≤ (w.body.length : Int)
  · simp [World.Addr, World.onWin, Win.setAddr, World.call, hv]
  · simp [World.Addr, World.onWin, Win.setAddr, World.call, hv]

theorem applyInbound_some (m : WebText) (w : Win) (we : Option String) (cs : List Call) :
    applyInbound m { win := some w, writeErr := we, calls := cs } =
      { win := some (inboundWin m w), writeErr := we, calls := cs ++ inboundCalls m } := by
  unfold applyInbound inboundWin inboundCalls
  simp only [Name_some, Addr_all_some]
  rw [Write_data_all _ _ _ _ rfl, Ctl_clean_some]
  cases hs : m.Selections with
  | nil => simp
  | cons sel rest =>
    simp only [Addr_range_some, Ctl_dot_some]
    by_cases hv : 0 ≤ sel.Start ∧ sel.Start ≤ sel.End ∧ sel.End ≤ (m.Text.length : Int)
    · simp [hv]
    · simp [hv]

theorem applyInbound_none (m : WebText) (we : Option String) (cs : List Call) :
    applyInbound m { win := none, writeErr := we, calls := cs } =
      { win := none, writeErr := we, calls := cs ++ inboundCalls m } := by
  unfold applyInbound inboundCalls
  cases hs : m.Selections <;>
    simp [World.Name, World.Addr, World.Write, World.Ctl, World.onWin, World.call]

/-! ## Observations are additive over the trace -/

theorem written_append (a b : List Call) : written (a ++ b) = written a ++ written b := by
  simp [written, List.filterMap_append]

theorem forwarded_append (a b : List Call) :
    forwarded (a ++ b) = forwarded a ++ forwarded b := by
  simp [forwarded, List.filterMap_append]

theorem logged_append (a b : List Call) : logged (a ++ b) = logged a ++ logged b := by
  simp [logged, List.filterMap_append]

theorem delCount_append (a b : List Call) : delCount (a ++ b) = delCount a + delCount b := by
  simp [delCount, List.filter_append]

theorem readCount_append (a b : List Call) : readCount (a ++ b) = readCount a + readCount b := by
  simp [readCount, List.filter_append]

theorem written_inboundCalls (m : WebText) : written (inboundCalls m) = [] := by
  unfold inboundCalls
  cases m.Selections <;> rfl

theorem delCount_inboundCalls (m : WebText) : delCount (inboundCalls m) = 0 := by
  unfold inboundCalls
  cases m.Selections <;> rfl

theorem readCount_inboundCalls (m : WebText) : readCount (inboundCalls m) = 0 := by
  unfold inboundCalls
  cases m.Selections <;> rfl

theorem written_writeLog (we : Option String) : written (writeLog we) = [] := by
  cases we <;> rfl

theorem forwarded_writeLog (we : Option String) : forwarded (writeLog we) = [] := by
  cases we <;> rfl

theorem delCount_writeLog (we : Option String) : delCount (writeLog we) = 0 := by
  cases we <;> rfl

theorem applyInbound_calls (m : WebText) (s : World) :
    (applyInbound m s).calls = s.calls ++ inboundCalls m := by
  obtain ⟨win, we, cs⟩ := s
  cases win with
  | none => rw [applyInbound_none]
  | some w => rw [applyInbound_some]

/-- What one event adds to the observations of the trace. -/
theorem handleEvent_observed (e : Event) (s : World) :
    delCount (handleEvent e s).calls = delCount s.calls ∧
    forwarded (handleEvent e s).calls = forwarded s.calls ++
      (if (e.C2 = 'x' ∨ e.C2 = 'X') ∧ e.Text = "Put" then [] else [e]) ∧
    ∃ new, written (handleEvent e s).calls = written s.calls ++ new ∧
      (new.length = if (e.C2 = 'x' ∨ e.C2 = 'X') ∧ e.Text = "Put" then 1 else 0) ∧
      ∀ web ∈ new, web.Title = "" ∧ web.URL = "" ∧ web.Syntax = "text.plain" ∧
        web.Selections.length = 1 := by
  by_cases h : (e.C2 = 'x' ∨ e.C2 = 'X') ∧ e.Text = "Put"
  · obtain ⟨win, we, cs⟩ := s
    cases win with
    | none =>
      rw [handleEvent_publish_none e we cs h.1 h.2]
      simp only [delCount_append, forwarded_append, written_append, delCount_writeLog,
        forwarded_writeLog, written_writeLog, h, and_self, if_true]
      refine ⟨rfl, by simp [forwarded], ⟨[⟨[⟨0, 0⟩], "text.plain", "", "", ""⟩], ?_, rfl, ?_⟩⟩
      · simp [written]
      · intro web hweb
        simp only [List.mem_singleton] at hweb
        subst hweb
        exact ⟨rfl, rfl, rfl, rfl⟩
    | some w =>
      rw [handleEvent_publish_some e w we cs h.1 h.2]
      simp only [delCount_append, forwarded_append, written_append, delCount_writeLog,
        forwarded_writeLog, written_writeLog, h, and_self, if_true]
      refine ⟨rfl, by simp [forwarded],
        ⟨[⟨[⟨(w.dot.1 : Int), (w.dot.2 : Int)⟩], "text.plain", "", w.body, ""⟩], ?_, rfl, ?_⟩⟩
      · simp [written]
      · intro web hweb
        simp only [List.mem_singleton] at hweb
        subst hweb
        exact ⟨rfl, rfl, rfl, rfl⟩
  · rw [handleEvent_pass e s h]
    simp only [World.WriteEvent, call_calls, delCount_append, forwarded_append, written_append,
      h, if_false]
    exact ⟨rfl, rfl, ⟨[], by simp [written], rfl, by simp⟩⟩

/-! ## The read loop -/

theorem readLoop_ok (r : Request) (m : WebText) (rest : List (Except ConnErr WebText))
    (s : World) :
    readLoop r (Except.ok m :: rest) s = readLoop r rest (applyInbound m (s.call Call.readJSON)) :=
  rfl

/-- The last turn of the read loop: the trace it adds, the surface it leaves. -/
theorem readLoop_error (r : Request) (err : ConnErr) (rest : List (Except ConnErr WebText))
    (s : World) :
    (readLoop r (Except.error err :: rest) s).2 = true ∧
    (readLoop r (Except.error err :: rest) s).1.calls = s.calls ++ [Call.readJSON] ++
      (match err with
        | ConnErr.closeError code _ =>
          if code = 1005 then []
          else [Call.logPrintf "error: %v, user-agent: %v" [err.msg, r.Get "User-Agent"]]
        | ConnErr.other _ => []) ++ [Call.winDel false] ∧
    (readLoop r (Except.error err :: rest) s).1.win =
      (match s.win with
        | some w => if w.dirty then some w else none
        | none => none) := by
  obtain ⟨win, we, cs⟩ := s
  refine ⟨rfl, ?_, ?_⟩
  · cases err with
    | closeError code text =>
      by_cases hc : code = 1005
      · subst hc
        have hu : IsUnexpectedCloseError (ConnErr.closeError 1005 text) [CloseNoStatusReceived]
            = false := by
          simp [IsUnexpectedCloseError, CloseNoStatusReceived]
        cases win <;>
          simp [readLoop, hu, World.Del, World.logPrintf, World.call]
      · have hu : IsUnexpectedCloseError (ConnErr.closeError code text) [CloseNoStatusReceived]
            = true := by
          simp [IsUnexpectedCloseError, CloseNoStatusReceived, hc]
        cases win <;>
          simp [readLoop, hu, hc, World.Del, World.logPrintf, World.call]
    | other msg =>
      cases win <;>
        simp [readLoop, IsUnexpectedCloseError, World.Del, World.logPrintf, World.call]
  · have hwin : ∀ s1 : World, (s1.Del false).win =
        (match s1.win with
          | some w => if w.dirty then some w else none
          | none => none) := by
      intro s1
      obtain ⟨win1, we1, cs1⟩ := s1
      cases win1 with
      | none => rfl
      | some w => cases hd : w.dirty <;> simp [World.Del, Win.del, World.call, hd]
    simp only [readLoop]
    rw [hwin]
    split_ifs <;> rfl

theorem readLoop_run (r : Request) (msgs : List WebText) (err : ConnErr)
    (rest : List (Except ConnErr WebText)) (s : World) :
    (readLoop r (msgs.map Except.ok ++ Except.error err :: rest) s).2 = true ∧
    delCount (readLoop r (msgs.map Except.ok ++ Except.error err :: rest) s).1.calls
      = delCount s.calls + 1 ∧
    readCount (readLoop r (msgs.map Except.ok ++ Except.error err :: rest) s).1.calls
      = readCount s.calls + msgs.length + 1 := by
  induction msgs generalizing s with
  | nil =>
    obtain ⟨hret, hcalls, _⟩ := readLoop_error r err rest s
    simp only [List.map_nil, List.nil_append, List.length_nil, Nat.add_zero]
    refine ⟨hret, ?_, ?_⟩
    · rw [hcalls]
      simp only [delCount_append]
      cases err with
      | closeError code text => by_cases hc : code = 1005 <;> simp [hc, delCount]
      | other msg => simp [delCount]
    · rw [hcalls]
      simp only [readCount_append]
      cases err with
      | closeError code text => by_cases hc : code = 1005 <;> simp [hc, readCount]
      | other msg => simp [readCount]
  | cons m ms ih =>
    simp only [List.map_cons, List.cons_append, readLoop_ok, List.length_cons]
    obtain ⟨h1, h2, h3⟩ := ih (applyInbound m (s.call Call.readJSON))
    refine ⟨h1, ?_, ?_⟩
    · rw [h2, applyInbound_calls, call_calls]
      simp only [delCount_append, delCount_inboundCalls]
      simp [delCount]
    · rw [h3, applyInbound_calls, call_calls]
      simp only [readCount_append, readCount_inboundCalls]
      simp [readCount]
      omega

theorem handleWinEvents_fold_observed (es : List Event) (s : World) :
    delCount (es.foldl (fun s e => handleEvent e s) s).calls = delCount s.calls ∧
    forwarded (es.foldl (fun s e => handleEvent e s) s).calls = forwarded s.calls ++
      es.filter (fun e => !decide ((e.C2 = 'x' ∨ e.C2 = 'X') ∧ e.Text = "Put")) ∧
    ∃ new, written (es.foldl (fun s e => handleEvent e s) s).calls = written s.calls ++ new ∧
      new.length = (es.filter
        (fun e => decide ((e.C2 = 'x' ∨ e.C2 = 'X') ∧ e.Text = "Put"))).length ∧
      ∀ web ∈ new, web.Title = "" ∧ web.URL = "" ∧ web.Syntax = "text.plain" ∧
        web.Selections.length = 1 := by
  induction es generalizing s with
  | nil => exact ⟨rfl, by simp, ⟨[], by simp, rfl, by simp⟩⟩
  | cons e es ih =>
    obtain ⟨hd, hf, new1, hw1, hl1, hm1⟩ := handleEvent_observed e s
    obtain ⟨hd2, hf2, new2, hw2, hl2, hm2⟩ := ih (handleEvent e s)
    simp only [List.foldl_cons]
    refine ⟨by rw [hd2, hd], ?_, ⟨new1 ++ new2, ?_, ?_, ?_⟩⟩
    · rw [hf2, hf]
      by_cases h : (e.C2 = 'x' ∨ e.C2 = 'X') ∧ e.Text = "Put"
      · have hp : ¬ ((!decide ((e.C2 = 'x' ∨ e.C2 = 'X') ∧ e.Text = "Put")) = true) := by
          rw [decide_eq_true h]
          decide
        rw [if_pos h, List.append_nil,
          List.filter_cons_of_neg (p := fun e : Event => !decide ((e.C2 = 'x' ∨ e.C2 = 'X') ∧ e.Text = "Put")) hp]
      · have hp : (!decide ((e.C2 = 'x' ∨ e.C2 = 'X') ∧ e.Text = "Put")) = true := by
          rw [decide_eq_false h]
          rfl
        rw [if_neg h, List.append_assoc,
          List.filter_cons_of_pos (p := fun e : Event => !decide ((e.C2 = 'x' ∨ e.C2 = 'X') ∧ e.Text = "Put")) hp]
        rfl
    · rw [hw2, hw1, List.append_assoc]
    · rw [List.length_append, hl1, hl2]
      by_cases h : (e.C2 = 'x' ∨ e.C2 = 'X') ∧ e.Text = "Put"
      · rw [if_pos h, List.filter_cons_of_pos (p := fun e : Event => decide ((e.C2 = 'x' ∨ e.C2 = 'X') ∧ e.Text = "Put"))
          (decide_eq_true h), List.length_cons]
        omega
      · have hp : ¬ (decide ((e.C2 = 'x' ∨ e.C2 = 'X') ∧ e.Text = "Put") = true) := by
          rw [decide_eq_false h]
          decide
        rw [if_neg h, List.filter_cons_of_neg (p := fun e : Event => decide ((e.C2 = 'x' ∨ e.C2 = 'X') ∧ e.Text = "Put")) hp]
        omega
    · intro web hweb
      rcases List.mem_append.mp hweb with h | h
      · exact hm1 web h
      · exact hm2 web h

/-! ## The surface after an inbound message -/

theorem inboundWin_body (m : WebText) (w : Win) : (inboundWin m w).body = m.Text := by
  unfold inboundWin
  cases m.Selections with
  | nil => rfl
  | cons sel rest => simp only []; split_ifs <;> rfl

theorem inboundWin_name (m : WebText) (w : Win) :
    (inboundWin m w).name = "/Ghost/" ++ m.URL := by
  unfold inboundWin
  cases m.Selections with
  | nil => rfl
  | cons sel rest => simp only []; split_ifs <;> rfl

theorem inboundWin_dirty (m : WebText) (w : Win) : (inboundWin m w).dirty = false := by
  unfold inboundWin
  cases m.Selections with
  | nil => rfl
  | cons sel rest => simp only []; split_ifs <;> rfl

theorem inboundWin_dot (m : WebText) (w : Win) (a b : Int) (rest : List Selection)
    (hsel : m.Selections = { Start := a, End := b } :: rest)
    (h0 : 0 ≤ a) (hab : a ≤ b) (hb : b ≤ (m.Text.length : Int)) :
    (inboundWin m w).dot = (a.toNat, b.toNat) := by
  unfold inboundWin
  rw [hsel]
  simp only []
  rw [if_pos ⟨h0, hab, hb⟩]

theorem shiftOffset_idem (n0 n q : Nat) :
    shiftOffset 0 n n (shiftOffset 0 n0 n q) = shiftOffset 0 n0 n q := by
  unfold shiftOffset
  simp only [Nat.sub_zero, Nat.zero_le, if_true]
  split_ifs <;> omega

theorem inboundWin_idem (m : WebText) (w : Win) :
    inboundWin m (inboundWin m w) = inboundWin m w := by
  have hb := inboundWin_body m w
  unfold inboundWin at hb ⊢
  cases hs : m.Selections with
  | nil =>
    simp only [shiftOffset_idem]
  | cons sel rest =>
    simp only []
    split_ifs <;> rfl

/-! ## The claims -/

/-- C1 (round trip): applying an inbound message with text `T` and then
processing one publish event, the body read succeeding, passes to
`conn.WriteJSON` exactly one message, whose `Text` is `T`. -/
theorem roundTrip_text (m : WebText) (e : Event) (s : World)
    (hc : e.C2 = 'x' ∨ e.C2 = 'X') (ht : e.Text = "Put")
    (hread : ((applyInbound m s).ReadAll "body").2.1 = none) :
    ∃ web, written (handleEvent e (applyInbound m s)).calls = written s.calls ++ [web] ∧
      web.Text = m.Text := by
  obtain ⟨win, we, cs⟩ := s
  cases win with
  | none =>
    rw [applyInbound_none] at hread
    simp [World.ReadAll] at hread
  | some w =>
    rw [applyInbound_some, handleEvent_publish_some _ _ _ _ hc ht]
    simp only [written_append, written_inboundCalls, written_writeLog, List.append_nil]
    exact ⟨⟨[⟨((inboundWin m w).dot.1 : Int), ((inboundWin m w).dot.2 : Int)⟩], "text.plain", "",
      (inboundWin m w).body, ""⟩, by simp [written], inboundWin_body m w⟩

/-- C1 at the message "hello" on a fresh surface. -/
theorem roundTrip_text_witness :
    (putEvent.C2 = 'x' ∨ putEvent.C2 = 'X') ∧ putEvent.Text = "Put" ∧
    ((applyInbound helloText freshWorld).ReadAll "body").2.1 = none ∧
    ∃ web, written (handleEvent putEvent (applyInbound helloText freshWorld)).calls
        = written freshWorld.calls ++ [web] ∧ web.Text = helloText.Text :=
  ⟨by decide, by decide, by decide,
    roundTrip_text helloText putEvent freshWorld (by decide) (by decide) (by decide)⟩

/-- C2, as stated, fails: for the text "é" (one character, `len(Text)` = 2
bytes) and the selection `{0, 2}`, which satisfies `0 ≤ a ≤ b ≤ len(Text)`, the
surface refuses the address, its selection is the empty range at offset 1, and
the next publish writes `[{1, 1}]`. -/
theorem selection_beyond_characters :
    (0 : Int) ≤ 0 ∧ (0 : Int) ≤ 2 ∧ (2 : Int) ≤ (goLen accentText.Text : Int) ∧
    accentText.Selections.head? = some { Start := 0, End := 2 } ∧
    (applyInbound accentText freshWorld).win.map (fun w => w.dot) = some (1, 1) ∧
    written (handleEvent putEvent (applyInbound accentText freshWorld)).calls =
      [{ Selections := [{ Start := 1, End := 1 }], Syntax := "text.plain", Title := "",
         Text := "é", URL := "" }] := by
  decide

/-- C2 (amended): after an inbound message whose first selection is `{a, b}`
with `0 ≤ a ≤ b ≤` the number of characters of `Text`, the selection of the
surface is the range from `a` to `b`, and a publish event processed next passes
to `conn.WriteJSON` one message whose `Selections` is `[{a, b}]`. -/
theorem selection_fidelity (m : WebText) (a b : Int) (rest : List Selection) (e : Event)
    (s : World) (w : Win) (hw : s.win = some w)
    (hsel : m.Selections = { Start := a, End := b } :: rest)
    (h0 : 0 ≤ a) (hab : a ≤ b) (hb : b ≤ (m.Text.length : Int))
    (hc : e.C2 = 'x' ∨ e.C2 = 'X') (ht : e.Text = "Put") :
    (∃ w1, (applyInbound m s).win = some w1 ∧ (w1.dot.1 : Int) = a ∧ (w1.dot.2 : Int) = b) ∧
    ∃ web, written (handleEvent e (applyInbound m s)).calls = written s.calls ++ [web] ∧
      web.Selections = [{ Start := a, End := b }] := by
  obtain ⟨win, we, cs⟩ := s
  simp only at hw
  subst hw
  have hdot := inboundWin_dot m w a b rest hsel h0 hab hb
  have h1 : ((inboundWin m w).dot.1 : Int) = a := by
    rw [hdot]
    exact Int.toNat_of_nonneg h0
  have h2 : ((inboundWin m w).dot.2 : Int) = b := by
    rw [hdot]
    exact Int.toNat_of_nonneg (le_trans h0 hab)
  rw [applyInbound_some, handleEvent_publish_some _ _ _ _ hc ht]
  refine ⟨⟨inboundWin m w, rfl, h1, h2⟩, ?_⟩
  simp only [written_append, written_inboundCalls, written_writeLog, List.append_nil]
  refine ⟨⟨[⟨((inboundWin m w).dot.1 : Int), ((inboundWin m w).dot.2 : Int)⟩], "text.plain", "",
    (inboundWin m w).body, ""⟩, by simp [written], ?_⟩
  simp only [h1, h2]

/-- C2 at the text "hello" with the selection `{0, 5}`. -/
theorem selection_fidelity_witness :
    (∃ w1, (applyInbound helloText freshWorld).win = some w1 ∧
      (w1.dot.1 : Int) = 0 ∧ (w1.dot.2 : Int) = 5) ∧
    ∃ web, written (handleEvent putEvent (applyInbound helloText freshWorld)).calls
        = written freshWorld.calls ++ [web] ∧ web.Selections = [{ Start := 0, End := 5 }] :=
  selection_fidelity helloText 0 5 [] putEvent freshWorld Win.fresh rfl rfl
    (by decide) (by decide) (by decide) (by decide) (by decide)

/-- A session past the upgrade and the creation of the surface: `handler` is its
read loop, run on the fresh surface with its tag written. -/
theorem handler_session (port : Int) (r : Request) (env : Env) (s : World)
    (hu : r.Get "Upgrade" = "websocket") (hup : env.upgradeErr = none)
    (hnew : env.newErr = none) :
    handler port r env s = readLoop r env.reads
      { win := some { Win.fresh with tag := "Undo Redo Put" }, writeErr := s.writeErr,
        calls := s.calls ++ [Call.upgrade, Call.acmeNew, Call.winWrite "tag" "Undo Redo Put",
          Call.goHandleWinEvents] } := by
  simp only [handler, hu, ne_eq, not_true_eq_false, if_false, hup, hnew]
  congr 1
  simp [World.Write, World.onWin, World.call, Win.write, Win.fresh]

/-- C3 (termination invariant): in a session whose surface was created and whose
reads end in a decode failure, `handler` returns after exactly one `w.Del` call;
the read loop issues exactly one `w.Del` from every state of the session, the
surface deleted or not; `handleWinEvents` issues none. -/
theorem one_deletion_per_session (port : Int) (r : Request) (env : Env) (s s1 s2 : World)
    (msgs : List WebText) (err : ConnErr) (es : List Event)
    (hu : r.Get "Upgrade" = "websocket") (hup : env.upgradeErr = none)
    (hnew : env.newErr = none)
    (hr : env.reads = msgs.map Except.ok ++ [Except.error err]) :
    (handler port r env s).2 = true ∧
    delCount (handler port r env s).1.calls = delCount s.calls + 1 ∧
    delCount (readLoop r env.reads s1).1.calls = delCount s1.calls + 1 ∧
    delCount (handleWinEvents es s2).calls = delCount s2.calls := by
  have hloop := fun t => readLoop_run r msgs err [] t
  rw [← hr] at hloop
  refine ⟨?_, ?_, (hloop s1).2.1, ?_⟩
  · rw [handler_session port r env s hu hup hnew]
    exact (hloop _).1
  · rw [handler_session port r env s hu hup hnew, (hloop _).2.1, delCount_append]
    rfl
  · unfold handleWinEvents
    rw [World.CloseFiles, call_calls, delCount_append,
      (handleWinEvents_fold_observed es s2).1]
    rfl

/-- C3 on a session of one message followed by a decode failure. -/
theorem one_deletion_per_session_witness :
    upgradeRequest.Get "Upgrade" = "websocket" ∧
    delCount (handler 4001 upgradeRequest
      { upgradeErr := none, newErr := none,
        reads := [Except.ok helloText, Except.error (ConnErr.closeError 1005 "")] }
      closedWorld).1.calls = 1 ∧
    delCount (handleWinEvents [undoEvent, putEvent] freshWorld).calls = 0 :=
  have h := one_deletion_per_session 4001 upgradeRequest
    { upgradeErr := none, newErr := none,
      reads := [Except.ok helloText, Except.error (ConnErr.closeError 1005 "")] }
    closedWorld closedWorld freshWorld [helloText] (ConnErr.closeError 1005 "")
    [undoEvent, putEvent] (by decide) rfl rfl rfl
  ⟨by decide, h.2.1, h.2.2.2⟩

/-- C4, as stated, fails: on a surface with unsaved edits the read loop ends
with `w.Del(false)`, `handler` returns and the surface is still there. -/
theorem dirty_surface_survives :
    readLoop upgradeRequest [Except.error (ConnErr.closeError 1005 "")] dirtyWorld =
      ({ win := dirtyWorld.win, writeErr := none,
         calls := [Call.readJSON, Call.winDel false] }, true) ∧
    dirtyWorld.win ≠ none := by
  decide

/-- C4 (amended): when the read loop ends on a decode failure, `handler`
returns and its last call is `w.Del(false)`, a delete that keeps unsaved state:
afterwards a clean surface no longer exists and a dirty one is left as it was. -/
theorem delete_unless_dirty (r : Request) (err : ConnErr)
    (rest : List (Except ConnErr WebText)) (s : World) :
    (readLoop r (Except.error err :: rest) s).2 = true ∧
    (readLoop r (Except.error err :: rest) s).1.calls.getLast? = some (Call.winDel false) ∧
    delCount (readLoop r (Except.error err :: rest) s).1.calls = delCount s.calls + 1 ∧
    (readLoop r (Except.error err :: rest) s).1.win =
      (match s.win with
        | some w => if w.dirty then some w else none
        | none => none) := by
  obtain ⟨hret, hcalls, hwin⟩ := readLoop_error r err rest s
  refine ⟨hret, ?_, (readLoop_run r [] err rest s).2.1, hwin⟩
  rw [hcalls]
  exact List.getLast?_concat _

/-- C5 (non-publish pass-through): an event that is not an execute event with
text `Put` adds the single call `w.WriteEvent(e)` to the trace; an execute event
with text `Put` is not forwarded and passes one message to `conn.WriteJSON`;
over a whole stream the forwarded events are the non-publish events, in order
and unchanged. -/
theorem nonpublish_passthrough (e : Event) (es : List Event) (s : World) :
    (¬ ((e.C2 = 'x' ∨ e.C2 = 'X') ∧ e.Text = "Put") →
      (handleEvent e s).calls = s.calls ++ [Call.winWriteEvent e]) ∧
    (((e.C2 = 'x' ∨ e.C2 = 'X') ∧ e.Text = "Put") →
      forwarded (handleEvent e s).calls = forwarded s.calls ∧
      ∃ web, written (handleEvent e s).calls = written s.calls ++ [web]) ∧
    forwarded (handleWinEvents es s).calls = forwarded s.calls ++
      es.filter (fun e => !decide ((e.C2 = 'x' ∨ e.C2 = 'X') ∧ e.Text = "Put")) := by
  refine ⟨?_, ?_, ?_⟩
  · intro h
    rw [handleEvent_pass e s h]
    rfl
  · intro h
    obtain ⟨_, hf, new, hw, hl, _⟩ := handleEvent_observed e s
    rw [if_pos h] at hf hl
    refine ⟨by rw [hf, List.append_nil], ?_⟩
    match new, hl with
    | [web], _ => exact ⟨web, hw⟩
  · unfold handleWinEvents
    rw [World.CloseFiles, call_calls, forwarded_append,
      (handleWinEvents_fold_observed es s).2.1]
    simp [forwarded]

/-- C5 at an `Undo` execution, a `Put` execution and a stream of both. -/
theorem nonpublish_passthrough_witness :
    (handleEvent undoEvent freshWorld).calls = [Call.winWriteEvent undoEvent] ∧
    forwarded (handleEvent putEvent freshWorld).calls = [] ∧
    forwarded (handleWinEvents [undoEvent, putEvent, undoEvent] freshWorld).calls
      = [undoEvent, undoEvent] :=
  ⟨(nonpublish_passthrough undoEvent [] freshWorld).1 (by decide),
   ((nonpublish_passthrough putEvent [] freshWorld).2.1 (by decide)).1,
   (nonpublish_passthrough undoEvent [undoEvent, putEvent, undoEvent] freshWorld).2.2⟩

/-- C6, as stated, fails: the message a publish command writes has `Syntax`
equal to "text.plain", not the empty string. -/
theorem outbound_syntax_not_default :
    written (handleWinEvents [putEvent] (applyInbound helloText freshWorld)).calls =
      [{ Selections := [{ Start := 0, End := 5 }], Syntax := "text.plain", Title := "",
         Text := "hello", URL := "" }] ∧
    ¬ (∀ web ∈ written (handleWinEvents [putEvent] (applyInbound helloText freshWorld)).calls,
        web.Syntax = "") := by
  decide

/-- C6 (amended): every message `handleWinEvents` passes to `conn.WriteJSON`,
one for each publish command of the stream, has `Title` and `URL` empty and
`Syntax` equal to the fixed string "text.plain", and carries one selection. -/
theorem outbound_metadata (es : List Event) (s : World) :
    ∃ new, written (handleWinEvents es s).calls = written s.calls ++ new ∧
      new.length = (es.filter
        (fun e => decide ((e.C2 = 'x' ∨ e.C2 = 'X') ∧ e.Text = "Put"))).length ∧
      ∀ web ∈ new, web.Title = "" ∧ web.URL = "" ∧ web.Syntax = "text.plain" ∧
        web.Selections.length = 1 := by
  obtain ⟨_, _, new, hw, hl, hm⟩ := handleWinEvents_fold_observed es s
  refine ⟨new, ?_, hl, hm⟩
  unfold handleWinEvents
  rw [World.CloseFiles, call_calls, written_append, hw]
  simp [written]

/-- C7 on the code: a publish event whose body read fails (the surface is gone)
is logged and still passes a message, with an empty text, to `conn.WriteJSON`. -/
theorem failed_read_still_publishes :
    (closedWorld.ReadAll "body").2.1 = some errNoWindow ∧
    (handleEvent putEvent closedWorld).calls =
      [Call.winReadAll "body", Call.logPrintf "failed to read body: %v\n" [errNoWindow],
        Call.winCtl "addr=dot", Call.winReadAddr,
        Call.writeJSON { Selections := [{ Start := 0, End := 0 }], Syntax := "text.plain",
                         Title := "", Text := "", URL := "" },
        Call.winCtl "clean"] ∧
    forwarded (handleWinEvents [putEvent, undoEvent] closedWorld).calls = [undoEvent] := by
  decide

/-- C8, as stated, fails: a malformed payload, which is not a close error, is not
logged, and a close with the normal-closure code 1000 is logged. -/
theorem malformed_payload_not_logged :
    logged (readLoop upgradeRequest
      [Except.error (ConnErr.other "unexpected end of JSON input")] freshWorld).1.calls = [] ∧
    logged (readLoop upgradeRequest
      [Except.error (ConnErr.closeError 1000 "websocket: close 1000 (normal)")]
      freshWorld).1.calls =
      [("error: %v, user-agent: %v", ["websocket: close 1000 (normal)", "Firefox"])] := by
  decide

/-- C8 (amended): on an error of `conn.ReadJSON` a log entry is written exactly
when the error is a close error whose code is not 1005 (no status received);
in every case the trace is otherwise the same: the one read, the call
`w.Del(false)`, and `handler` returns without reading again. -/
theorem decode_failure_reporting (r : Request) (err : ConnErr)
    (rest : List (Except ConnErr WebText)) (s : World) :
    (readLoop r (Except.error err :: rest) s).2 = true ∧
    (readLoop r (Except.error err :: rest) s).1.calls = s.calls ++ [Call.readJSON] ++
      (match err with
        | ConnErr.closeError code _ =>
          if code = 1005 then []
          else [Call.logPrintf "error: %v, user-agent: %v" [err.msg, r.Get "User-Agent"]]
        | ConnErr.other _ => []) ++ [Call.winDel false] :=
  ⟨(readLoop_error r err rest s).1, (readLoop_error r err rest s).2.1⟩

/-- C9 (idempotent clean): on a live surface an inbound message leaves the body
equal to its text, the name equal to "/Ghost/" followed by its URL and the
surface clean, and applying the same message again leaves the same surface. -/
theorem idempotent_clean (m : WebText) (s : World) (w : Win) (hw : s.win = some w) :
    ∃ w1, (applyInbound m s).win = some w1 ∧ w1.dirty = false ∧ w1.body = m.Text ∧
      w1.name = "/Ghost/" ++ m.URL ∧
      (applyInbound m (applyInbound m s)).win = some w1 := by
  obtain ⟨win, we, cs⟩ := s
  simp only at hw
  subst hw
  refine ⟨inboundWin m w, ?_, inboundWin_dirty m w, inboundWin_body m w,
    inboundWin_name m w, ?_⟩
  · rw [applyInbound_some]
  · rw [applyInbound_some, applyInbound_some, inboundWin_idem]

/-- C9 at the message "hello" with the selection `{0, 5}` on a surface with
unsaved edits. -/
theorem idempotent_clean_witness :
    ∃ w1, (applyInbound helloText dirtyWorld).win = some w1 ∧ w1.dirty = false ∧
      w1.body = helloText.Text ∧ w1.name = "/Ghost/" ++ helloText.URL ∧
      (applyInbound helloText (applyInbound helloText dirtyWorld)).win = some w1 :=
  idempotent_clean helloText dirtyWorld
    { name := "/Ghost/http://x", tag := "Undo Redo Put", body := "hello, world",
      addr := (0, 5), dot := (12, 12), dirty := true } rfl

/-- C10 (discovery response): on a request whose `Upgrade` header is not
"websocket", `handler` returns after two calls and no other: it sets
`Content-Type` to `application/json` and writes the JSON greeting with the
port, followed by one newline. -/
theorem discovery_response (port : Int) (r : Request) (env : Env) (s : World)
    (h : r.Get "Upgrade" ≠ "websocket") :
    handler port r env s =
      ({ win := s.win, writeErr := s.writeErr,
         calls := s.calls ++ [Call.hdrSet "Content-Type" "application/json",
           Call.respWrite ("\x7b\"WebSocketPort\":" ++ toString port ++
             ",\"ProtocolVersion\":1\x7d" ++ "\n")] }, true) := by
  simp [handler, h, World.call]

/-- C10 at the default port 4001. -/
theorem discovery_response_witness :
    plainRequest.Get "Upgrade" ≠ "websocket" ∧
    handler 4001 plainRequest { upgradeErr := none, newErr := none, reads := [] } closedWorld =
      ({ win := none, writeErr := none,
         calls := [Call.hdrSet "Content-Type" "application/json",
           Call.respWrite "\x7b\"WebSocketPort\":4001,\"ProtocolVersion\":1\x7d\n"] }, true) :=
  ⟨by decide,
    (discovery_response 4001 plainRequest { upgradeErr := none, newErr := none, reads := [] }
      closedWorld (by decide)).trans (by decide)⟩

end Ghost
